import Mathlib

/-!
Verification of the toolbelt repository's session orchestrator
(`lib/toolbelt.py`), as a shallow embedding in Lean.

Modelling conventions, stated once here:

* Python values parsed by `json.loads` become the inductive `Json`.
  Numbers are modelled as integers (no claim touches floats).
* A Python `dict` is an insertion-ordered association list whose keys are
  distinct; `d[k] = v` keeps the original position of an existing key and
  appends a fresh one (`dictInsert`), and `d[k]` is `dictGet?`.
  Python dict keys must be hashable, so keys coming from JSON values are
  restricted to the scalar type `PyKey`.
* External collaborators (the OpenAI client, the `json` module, the
  supabase client, the dynamic import and the dynamic call of a generated
  tool) are oracle functions collected in the structure `Env`; a Python
  exception escaping a collaborator is the `.error` case of `Except String`
  carrying `str(e)`.  A `KeyError` for key `k` stringifies as Python does,
  to `'k'`.
* The generator `ToolbeltSession.run` becomes a pure function from the
  oracle and its arguments to the ordered list of yielded progress events,
  the final session state, the tool-file store, and an `Outcome` saying
  whether the generator finished or raised.
-/

namespace Toolbelt

/-- JSON values as returned by `json.loads`. -/
inductive Json where
  | null : Json
  | bool : Bool → Json
  | num : Int → Json
  | str : String → Json
  | arr : List Json → Json
  | obj : List (String × Json) → Json

/-- Scalar JSON values, the only ones usable as Python dict keys
(lists and dicts are unhashable). -/
inductive PyKey where
  | null : PyKey
  | bool : Bool → PyKey
  | num : Int → PyKey
  | str : String → PyKey
deriving DecidableEq, Repr

/-- `j[k]` on a parsed JSON value: a field lookup on an object, nothing on
any other value.  (On a non-dict Python raises `TypeError` where we return
`none`; every claim that exercises this lookup does so on objects.) -/
def Json.get? : Json → String → Option Json
  | .obj kvs, k => (kvs.find? (fun kv => decide (kv.1 = k))).map (·.2)
  | _, _ => none

/-- The dict key made from a JSON value, when the value is hashable. -/
def pyKeyOf? : Json → Option PyKey
  | .null => some .null
  | .bool b => some (.bool b)
  | .num n => some (.num n)
  | .str s => some (.str s)
  | _ => none

/-- Python `str(...)` of a scalar JSON value, used when the code
interpolates `tool["name"]` or `tool["description"]` into an f-string.
Containers never reach an f-string in any behaviour the claims mention, so
their rendering is a fixed placeholder. -/
def Json.fmt : Json → String
  | .null => "None"
  | .bool true => "True"
  | .bool false => "False"
  | .num n => toString n
  | .str s => s
  | .arr _ => "<list>"
  | .obj _ => "<dict>"

/-- Python `str(KeyError(k))`: the `repr` of the key. -/
def PyKey.pyRepr : PyKey → String
  | .null => "None"
  | .bool true => "True"
  | .bool false => "False"
  | .num n => toString n
  | .str s => "\x27" ++ s ++ "\x27"

/-- `d[k] = v` on a Python dict: replace in place when the key exists,
append otherwise. -/
def dictInsert {κ α : Type} [DecidableEq κ] (d : List (κ × α)) (k : κ) (v : α) :
    List (κ × α) :=
  if d.any (fun p => decide (p.1 = k)) then
    d.map (fun p => if p.1 = k then (k, v) else p)
  else d ++ [(k, v)]

/-- `d[k]` / `d.get(k)` on a Python dict. -/
def dictGet? {κ α : Type} [DecidableEq κ] (d : List (κ × α)) (k : κ) : Option α :=
  (d.find? (fun p => decide (p.1 = k))).map (·.2)

/-- Characters stripped by Python `str.strip()` and matched by `\s`
(ASCII range). -/
def isPySpace (c : Char) : Bool :=
  c = ' ' || c = '\t' || c = '\n' || c = '\r' || c = '\x0b' || c = '\x0c'

/-- Python `str.strip()` on a character list. -/
def pyStrip (s : List Char) : List Char :=
  ((s.dropWhile isPySpace).reverse.dropWhile isPySpace).reverse

/-- Split a character list at the first occurrence of `tag`: the text
before the occurrence and the text after it.  `none` when `tag` does not
occur. -/
def splitFirst (tag : List Char) : List Char → Option (List Char × List Char)
  | [] => if tag.isPrefixOf ([] : List Char) then some ([], []) else none
  | c :: cs =>
    if tag.isPrefixOf (c :: cs) then some ([], (c :: cs).drop tag.length)
    else
      match splitFirst tag cs with
      | some (pre, post) => some (c :: pre, post)
      | none => none

/-- The opening marker of the tool-specification protocol. -/
def startTag : List Char := "<tool_spec>".data

/-- The closing marker of the tool-specification protocol. -/
def endTag : List Char := "</tool_spec>".data

/-- One scanning step of `re.findall(r'<tool_spec>\s*(.*?)\s*</tool_spec>', content, re.DOTALL)`:
jump to the first opening marker, capture up to the earliest closing marker
(the lazy `(.*?)`), continue after it.  The raw text between the markers is
returned; the `\s*` of the pattern together with the `.strip()` the caller
applies amount to one `pyStrip`, applied at the call site.  The fuel is one
more than the text length; each match consumes at least the closing marker,
so the fuel never runs out. -/
def findMatchesAux : Nat → List Char → List (List Char)
  | 0, _ => []
  | fuel + 1, s =>
    match splitFirst startTag s with
    | none => []
    | some (_, rest) =>
      match splitFirst endTag rest with
      | none => []
      | some (inner, rest2) => inner :: findMatchesAux fuel rest2

/-- All marker-delimited candidates of a content string, in order of
occurrence. -/
def findMatches (s : List Char) : List (List Char) :=
  findMatchesAux (s.length + 1) s

/-- The `for match in matches` loop of `extract_tool_specs`: each candidate
is stripped and handed to `json.loads`; a parse failure (the `except
json.JSONDecodeError` branch) is skipped and the loop continues. -/
def parseCandidates (jsonLoads : String → Option Json) :
    List (List Char) → List Json
  | [] => []
  | m :: ms =>
    match jsonLoads (String.mk (pyStrip m)) with
    | some t => t :: parseCandidates jsonLoads ms
    | none => parseCandidates jsonLoads ms

/-- `extract_tool_specs(content)` (lib/toolbelt.py, lines 18-44),
parameterised by the `json.loads` oracle. -/
def extract_tool_specs (jsonLoads : String → Option Json) (content : String) :
    List Json :=
  parseCandidates jsonLoads (findMatches content.data)

/-- A structured function-call request in a model response
(`item.type == "function_call"`). -/
structure FnCall where
  name : String
  arguments : String
  call_id : String
deriving DecidableEq, Repr

/-- One item of a model response's `output` list. -/
inductive Item where
  | functionCall : FnCall → Item
  | message : String → Item
deriving DecidableEq, Repr

/-- A model response as the code reads it: the `output` item list and the
`output_text` convenience string. -/
structure Response where
  output : List Item
  output_text : String

/-- An entry of one of the session's two message histories.
`outputList` is `creation_thread.append(response.output)`, which appends
the whole list as one element; `item` is one element of
`response_thread += response.output`, which extends; `fco` is a
`function_call_output` dict appended during result aggregation. -/
inductive Msg where
  | user : String → Msg
  | outputList : List Item → Msg
  | item : Item → Msg
  | fco : (call_id : String) → (output : String) → Msg

/-- A `function_call_output` record: the Call Result for one Call
Request. -/
structure CallResult where
  call_id : String
  output : String
deriving DecidableEq, Repr

/-- A row of the batch inserted into the supabase `tools` table. -/
structure Row where
  name : PyKey
  description : Json
  session : String
  python_source : String
  json_schema : Json
  creator : String

/-- Whether the generator finished normally or a Python exception escaped
it (the string is `str(e)`). -/
inductive Outcome where
  | completed : Outcome
  | raised : String → Outcome
deriving DecidableEq, Repr

/-- The mutable fields of `ToolbeltSession` that `run` touches. -/
structure SessionState where
  creation_thread : List Msg
  response_thread : List Msg
  tools_to_create : List (PyKey × Json)
  tool_fns : List (PyKey × String)

/-- The written tool files: path → content.  `open(path, "w")` truncates,
so a write is a `dictInsert`. -/
def FileStore : Type := List (String × String)

/-- The external collaborators of one run, as deterministic oracles:
the three OpenAI `responses.create` configurations, the `json` module,
the supabase insert, and the dynamic import / dynamic call of a generated
tool.  An `.error e` is a raised exception with `str(e) = e`. -/
structure Env where
  toolCreation : List Msg → Except String Response
  jsonLoads : String → Option Json
  jsonDumps : Json → String
  writeToolSource : String → Except String String
  insertTools : List Row → Except String Unit
  useTool : List (PyKey × Json) → List Msg → Except String Response
  importTool : String → Except String Unit
  callTool : String → Json → Except String Json
  summarize : List Msg → Except String String

/-- The observable outcome of one `run`: the ordered progress events, the
generator's fate, the final session state and the final tool-file store. -/
structure RunResult where
  events : List String
  outcome : Outcome
  state : SessionState
  store : FileStore

/-- The spec-ingestion loop of the planning phase (lines 86-87):
`self.tools_to_create[tool["name"]] = tool` for each extracted spec.
A spec without a `"name"` field raises `KeyError("name")`; a spec whose
name is an unhashable JSON value raises `TypeError`.  The partly built
dict and `str(e)` are returned on failure. -/
def ingestSpecs (d : List (PyKey × Json)) :
    List Json → List (PyKey × Json) × Option String
  | [] => (d, none)
  | t :: ts =>
    match t.get? "name" with
    | none => (d, some "\x27name\x27")
    | some v =>
      match pyKeyOf? v with
      | none => (d, some "unhashable type")
      | some k => ingestSpecs (dictInsert d k t) ts

/-- The reporting loop (lines 91-92): one event `f"{name}: {description}"`
per planned capability, in dict order; a missing field raises `KeyError`
mid-loop, keeping the events already yielded. -/
def reportEvents : List (PyKey × Json) → List String × Option String
  | [] => ([], none)
  | (_, t) :: rest =>
    match t.get? "name" with
    | none => ([], some "\x27name\x27")
    | some n =>
      match t.get? "description" with
      | none => ([], some "\x27description\x27")
      | some ds =>
        let (evs, err) := reportEvents rest
        ((n.fmt ++ ": " ++ ds.fmt) :: evs, err)

/-- The name-addressed storage location of a synthesized tool:
`os.path.join(tool_dir, f"lib/tools/{name}.py")`. -/
def toolPath (tool_dir : String) (name : Json) : String :=
  tool_dir ++ "/lib/tools/" ++ name.fmt ++ ".py"

/-- `ToolbeltSession.generate_and_write_tool` (lines 59-70): one model
call with the dumped spec as input, then the whole output text written to
the name-derived path (truncating any previous content), and the output
text returned. -/
def generate_and_write_tool (env : Env) (tool_dir : String) (store : FileStore)
    (tool : Json) : Except String (String × FileStore) :=
  match env.writeToolSource (env.jsonDumps tool) with
  | .error e => .error e
  | .ok output_text =>
    match tool.get? "name" with
    | none => .error "\x27name\x27"
    | some n =>
      .ok (output_text, dictInsert store (toolPath tool_dir n) output_text)

/-- The synthesis phase's worker pool (lines 97-98):
`executor.map` runs one `generate_and_write_tool` per capability and
yields results in input order; `list(...)` raises the exception of the
first failing element, but every submitted task still runs, so the file
writes of the other capabilities still land.  Returns the final store and
either the ordered `{name, tool_fn}` results or the first error. -/
def synthMap (env : Env) (tool_dir : String) (store : FileStore) :
    List (PyKey × Json) → FileStore × Except String (List (PyKey × String))
  | [] => (store, .ok [])
  | (k, t) :: rest =>
    match generate_and_write_tool env tool_dir store t with
    | .ok (src, store1) =>
      let (store2, res) := synthMap env tool_dir store1 rest
      (store2, res.map (fun rs => (k, src) :: rs))
    | .error e =>
      let (store2, _) := synthMap env tool_dir store rest
      (store2, .error e)

/-- The list comprehension `[t["name"] for t in self.tools_to_create.values()]`
(line 107): a `KeyError` of the first tool without a name propagates. -/
def collectNames : List (PyKey × Json) → Except String (List Json)
  | [] => .ok []
  | (_, t) :: rest =>
    match t.get? "name" with
    | none => .error "\x27name\x27"
    | some n => (collectNames rest).map (fun ns => n :: ns)

/-- `",".join(names)`: every element must be a string, otherwise `join`
raises `TypeError` at the first non-string. -/
def joinStrs : List Json → Except String String
  | [] => .ok ""
  | [Json.str s] => .ok s
  | Json.str s :: t :: rest =>
    (joinStrs (t :: rest)).map (fun r => s ++ "," ++ r)
  | _ => .error "sequence item: expected str instance"

/-- The batch built for the supabase insert (lines 112-121): one row per
capability, in dict order; `self.tools_to_create[n]["description"]` or
`self.tool_fns[n]` may raise `KeyError` (the latter whenever synthesis
failed and `tool_fns` stayed empty). -/
def buildBatch (d : List (PyKey × Json)) (fns : List (PyKey × String))
    (session_id user_id : String) : List (PyKey × Json) → Except String (List Row)
  | [] => .ok []
  | (k, t) :: rest =>
    match t.get? "description" with
    | none => .error "\x27description\x27"
    | some desc =>
      match dictGet? fns k with
      | none => .error k.pyRepr
      | some src =>
        (buildBatch d fns session_id user_id rest).map
          (fun rs => ⟨k, desc, session_id, src, t, user_id⟩ :: rs)

/-- The persistence-notification phase (lines 110-125): build the batch and
insert it; any exception inside the `try` — during batch building or from
the insert — is caught and reported as a progress event, and the phase
touches no session state either way. -/
def persistenceStep (env : Env) (session_id user_id : String)
    (d : List (PyKey × Json)) (fns : List (PyKey × String)) : List String :=
  match buildBatch d fns session_id user_id d with
  | .error e => ["Failed to log to Supabase: " ++ e]
  | .ok batch =>
    match env.insertTools batch with
    | .ok _ => ["Added tools to the Supabase collection."]
    | .error e => ["Failed to log to Supabase: " ++ e]

/-- Lines 146-154: keep only the `function_call` items of the invoker's
output. -/
def collectFnCalls (items : List Item) : List FnCall :=
  items.filterMap (fun it =>
    match it with
    | .functionCall fc => some fc
    | .message _ => none)

/-- Lines 160-163: parse each call request's `arguments` JSON.  A
`json.JSONDecodeError` here is not caught anywhere in `run`, so the first
malformed payload aborts the generator. -/
def parseInvocations (jsonLoads : String → Option Json) :
    List FnCall → Except String (List (FnCall × Json))
  | [] => .ok []
  | fc :: rest =>
    match jsonLoads fc.arguments with
    | none => .error "JSONDecodeError"
    | some args =>
      (parseInvocations jsonLoads rest).map (fun is => (fc, args) :: is)

/-- The import loop (lines 171-178):
`exec(f"from lib.tools.{name} import {name}")` per call request, the
failure caught per request; the second component collects the names the
`exec` bound in the generator's frame. -/
def importLoop (env : Env) : List FnCall → List String × List String
  | [] => ([], [])
  | fn :: rest =>
    let (evs, imp) := importLoop env rest
    match env.importTool fn.name with
    | .ok _ =>
      (("Importing tool: " ++ fn.name ++ "...") ::
        ("Successfully imported tool: " ++ fn.name) :: evs, fn.name :: imp)
    | .error e =>
      (("Importing tool: " ++ fn.name ++ "...") ::
        ("Error importing tool " ++ fn.name ++ ": " ++ e) :: evs, imp)

/-- The names bound by the import loop. -/
def importedNames (env : Env) (fns : List FnCall) : List String :=
  (importLoop env fns).2

/-- `eval(f"{name}(**kwargs)")` (line 185): when the import loop never
bound `name`, the bare name does not resolve and Python raises
`NameError: name 'x' is not defined` (tool names do not shadow the
module's globals or builtins); otherwise the generated tool itself runs,
as the oracle `callTool`. -/
def effCall (env : Env) (imported : List String) (inv : FnCall × Json) :
    Except String Json :=
  if inv.1.name ∈ imported then env.callTool inv.1.name inv.2
  else .error ("name \x27" ++ inv.1.name ++ "\x27 is not defined")

/-- The one Call Result the execution loop records for one Call Request:
the dumped return value on success, the dumped `{"error": str(e)}` dict on
failure. -/
def execOneResult (env : Env) (imported : List String) (inv : FnCall × Json) :
    CallResult :=
  match effCall env imported inv with
  | .ok r => ⟨inv.1.call_id, env.jsonDumps r⟩
  | .error e => ⟨inv.1.call_id, env.jsonDumps (Json.obj [("error", Json.str e)])⟩

/-- The execution loop (lines 181-191): sequential, one iteration per Call
Request, failure caught per request, exactly one `function_call_output`
appended per request.  `n` is the total count shown in the progress
events, `i` the zero-based position of the first remaining request. -/
def execLoop (env : Env) (imported : List String) (n : Nat) :
    Nat → List (FnCall × Json) → List String × List CallResult
  | _, [] => ([], [])
  | i, inv :: rest =>
    let (evs, cs) := execLoop env imported n (i + 1) rest
    let head := "Executing tool " ++ toString (i + 1) ++ "/" ++ toString n ++
      ": " ++ inv.1.name ++ "..."
    match effCall env imported inv with
    | .ok r =>
      (head :: ("Tool " ++ inv.1.name ++ " completed successfully") :: evs,
        ⟨inv.1.call_id, env.jsonDumps r⟩ :: cs)
    | .error e =>
      (head :: ("Error executing tool " ++ inv.1.name ++ ": " ++ e) :: evs,
        ⟨inv.1.call_id, env.jsonDumps (Json.obj [("error", Json.str e)])⟩ :: cs)

/-- The dynamic-execution phase (lines 170-191): the import loop over all
call requests, then the execution loop over all call requests. -/
def dynPhase (env : Env) (invs : List (FnCall × Json)) :
    List String × List CallResult :=
  let imp := importLoop env (invs.map Prod.fst)
  let ex := execLoop env imp.2 invs.length 0 invs
  (imp.1 ++ ex.1, ex.2)

/-- Lines 127-203 of `run`: everything from the "Now I\x27ll use these
tools" event onward.  Note that the emptiness check of line 134 only
yields a warning event — the code carries no `return`, so the invoker
call, the dynamic execution and the summarization run regardless. -/
def phaseInvokeOnward (env : Env) (store : FileStore) (user_request : String)
    (s : SessionState) : RunResult :=
  let rt1 := s.response_thread ++ [Msg.user user_request]
  let ev0 := ["Now I\x27ll use these tools to answer your question...",
    "Analyzing your request and determining which tools to use..."]
  let evWarn :=
    if s.tools_to_create.length = 0 then
      ["No tools were created, cannot proceed with execution."]
    else []
  match env.useTool s.tools_to_create rt1 with
  | .error e =>
    ⟨ev0 ++ evWarn, .raised e,
      ⟨s.creation_thread, rt1, s.tools_to_create, s.tool_fns⟩, store⟩
  | .ok resp =>
    let rt2 := rt1 ++ resp.output.map Msg.item
    match parseInvocations env.jsonLoads (collectFnCalls resp.output) with
    | .error e =>
      ⟨ev0 ++ evWarn, .raised e,
        ⟨s.creation_thread, rt2, s.tools_to_create, s.tool_fns⟩, store⟩
    | .ok invs =>
      let evCount :=
        if invs.length = 0 then ["No tools need to be executed for this request."]
        else ["I need to execute " ++ toString invs.length ++
          " tool(s) to answer your question..."]
      let dyn := dynPhase env invs
      let rt3 := rt2 ++ dyn.2.map (fun c => Msg.fco c.call_id c.output)
      let evsAll := ev0 ++ evWarn ++ evCount ++ dyn.1 ++
        ["Processing the results and generating final response..."]
      match env.summarize rt3 with
      | .error e =>
        ⟨evsAll, .raised e,
          ⟨s.creation_thread, rt3, s.tools_to_create, s.tool_fns⟩, store⟩
      | .ok txt =>
        ⟨evsAll ++ ["Final response: " ++ txt], .completed,
          ⟨s.creation_thread, rt3, s.tools_to_create, s.tool_fns⟩, store⟩

/-- Lines 105-203 of `run`: the "I have went ahead" history entry, the
persistence notification, then everything from the invocation phase
onward.  `evs` are the events already yielded. -/
def afterSynth (env : Env) (store : FileStore)
    (user_request session_id user_id : String) (ct1 : List Msg)
    (d : List (PyKey × Json)) (fns : List (PyKey × String))
    (evs : List String) : RunResult :=
  match (collectNames d).bind joinStrs with
  | .error e => ⟨evs, .raised e, ⟨ct1, [], d, fns⟩, store⟩
  | .ok joined =>
    let ct2 := ct1 ++ [Msg.user ("I have went ahead and successfully created " ++
      toString d.length ++ " tools: " ++ joined)]
    let tail := phaseInvokeOnward env store user_request ⟨ct2, [], d, fns⟩
    ⟨evs ++ persistenceStep env session_id user_id d fns ++ tail.events,
      tail.outcome, tail.state, tail.store⟩

/-- `ToolbeltSession.run(user_request, session_id, user_id)`
(lib/toolbelt.py, lines 73-203) over a fresh session (the constructor
leaves both histories and both dicts empty): the full multi-phase
pipeline — planning, reporting, synthesis, persistence notification,
invocation, call extraction, dynamic execution, result aggregation,
summarization — produced as the ordered list of yielded progress events
plus the generator's fate. -/
def run (env : Env) (tool_dir : String) (store0 : FileStore)
    (user_request session_id user_id : String) : RunResult :=
  let ct0 := [Msg.user user_request]
  let ev1 := ["Determining necessary tool definitions..."]
  match env.toolCreation ct0 with
  | .error e => ⟨ev1, .raised e, ⟨ct0, [], [], []⟩, store0⟩
  | .ok resp =>
    let ct1 := ct0 ++ [Msg.outputList resp.output]
    match ingestSpecs [] (extract_tool_specs env.jsonLoads resp.output_text) with
    | (d, some err) => ⟨ev1, .raised err, ⟨ct1, [], d, []⟩, store0⟩
    | (d, none) =>
      let ev2 := ev1 ++ ["Great! I need to write the source for the following tools:"]
      match reportEvents d with
      | (repEvs, some err) =>
        ⟨ev2 ++ repEvs, .raised err, ⟨ct1, [], d, []⟩, store0⟩
      | (repEvs, none) =>
        let ev3 := ev2 ++ repEvs ++ ["Writing tool source code...."]
        match synthMap env tool_dir store0 d with
        | (store1, .ok pairs) =>
          let fns := pairs.foldl (fun m p => dictInsert m p.1 p.2) []
          afterSynth env store1 user_request session_id user_id ct1 d fns
            (ev3 ++ ["Finished writing code for " ++ toString pairs.length ++ " tools"])
        | (store1, .error e) =>
          afterSynth env store1 user_request session_id user_id ct1 d []
            (ev3 ++ ["Error writing tool source code: " ++ e])

/-! ### Concrete collaborator environments used as test inputs -/

/-- A deterministic environment whose every collaborator fails or returns
nothing; the concrete environments below override the calls a scenario
exercises. -/
def stubEnv : Env where
  toolCreation := fun _ => .error "stub"
  jsonLoads := fun _ => none
  jsonDumps := fun _ => "null"
  writeToolSource := fun _ => .error "stub"
  insertTools := fun _ => .ok ()
  useTool := fun _ _ => .error "stub"
  importTool := fun _ => .error "stub"
  callTool := fun _ _ => .error "stub"
  summarize := fun _ => .ok "done"

/-- A planner answer containing no `<tool_spec>` markers at all: the
capability mapping stays empty. -/
def envNoSpecs : Env :=
  { stubEnv with
    toolCreation := fun _ => .ok ⟨[], "I cannot find any tools to create."⟩
    useTool := fun _ _ => .ok ⟨[], ""⟩
    summarize := fun _ => .ok "I was unable to help." }

/-- A specification for a single capability `t`. -/
def specT : Json := Json.obj [("name", Json.str "t"), ("description", Json.str "d")]

/-- One planned capability `t` whose source generation raises `boom`; the
invoker then requests one call of `t`, whose import fails because the tool
file was never written. -/
def envSynthFails : Env :=
  { stubEnv with
    toolCreation := fun _ =>
      .ok ⟨[], "<tool_spec>\x7b\"name\": \"t\", \"description\": \"d\"\x7d</tool_spec>"⟩
    jsonLoads := fun s =>
      if s = "\x7b\"name\": \"t\", \"description\": \"d\"\x7d" then some specT
      else if s = "\x7b\x7d" then some (Json.obj []) else none
    jsonDumps := fun j =>
      match j with
      | Json.obj [("error", Json.str e)] => "\x7b\"error\": \"" ++ e ++ "\"\x7d"
      | Json.obj [] => "\x7b\x7d"
      | _ => "null"
    writeToolSource := fun _ => .error "boom"
    useTool := fun _ _ => .ok ⟨[Item.functionCall ⟨"t", "\x7b\x7d", "call_1"⟩], ""⟩
    importTool := fun _ => .error "No module named \x27lib.tools.t\x27"
    summarize := fun _ => .ok "I could not run the tool." }

/-- A planner answer with one marker-delimited candidate that is valid
JSON (`{}`) but has no `"name"` field. -/
def envMissingName : Env :=
  { stubEnv with
    toolCreation := fun _ => .ok ⟨[], "<tool_spec>\x7b\x7d</tool_spec>"⟩
    jsonLoads := fun s => if s = "\x7b\x7d" then some (Json.obj []) else none }

/-- One planned capability `t` synthesized successfully, but the session
store's insert raises. -/
def envInsertFails : Env :=
  { stubEnv with
    toolCreation := fun _ =>
      .ok ⟨[], "<tool_spec>\x7b\"name\": \"t\", \"description\": \"d\"\x7d</tool_spec>"⟩
    jsonLoads := fun s =>
      if s = "\x7b\"name\": \"t\", \"description\": \"d\"\x7d" then some specT
      else if s = "\x7b\x7d" then some (Json.obj []) else none
    writeToolSource := fun _ => .ok "def t(): return 1"
    insertTools := fun _ => .error "db down"
    useTool := fun _ _ => .ok ⟨[], ""⟩
    summarize := fun _ => .ok "done." }

/-- Two call requests whose imports both fail. -/
def envImportFails : Env :=
  { stubEnv with
    importTool := fun _ => .error "No module named \x27lib.tools.t\x27" }

/-- The two call requests handed to the dynamic-execution phase in the C4
witness scenario. -/
def invsTwo : List (FnCall × Json) :=
  [(⟨"t", "\x7b\x7d", "call_1"⟩, Json.obj []),
   (⟨"u", "\x7b\x7d", "call_2"⟩, Json.obj [])]

/-- Two specifications sharing the name `a`, with different descriptions. -/
def specA1 : Json := Json.obj [("name", Json.str "a"), ("description", Json.str "one")]

/-- The later of the two specifications named `a`. -/
def specA2 : Json := Json.obj [("name", Json.str "a"), ("description", Json.str "two")]

/-- A synthesizer whose model emits `v1`. -/
def envGenV1 : Env := { stubEnv with writeToolSource := fun _ => .ok "v1" }

/-- A synthesizer whose model emits `v2`. -/
def envGenV2 : Env := { stubEnv with writeToolSource := fun _ => .ok "v2" }

/-! ### Helper lemmas -/

theorem parseCandidates_eq_filterMap (jl : String → Option Json)
    (ms : List (List Char)) :
    parseCandidates jl ms = ms.filterMap (fun m => jl (String.mk (pyStrip m))) := by
  induction ms with
  | nil => rfl
  | cons m ms ih =>
    cases h : jl (String.mk (pyStrip m)) with
    | none => simp [parseCandidates, h, ih]
    | some t => simp [parseCandidates, h, ih]

theorem parseCandidates_append (jl : String → Option Json)
    (l1 l2 : List (List Char)) :
    parseCandidates jl (l1 ++ l2) =
      parseCandidates jl l1 ++ parseCandidates jl l2 := by
  simp [parseCandidates_eq_filterMap]

theorem parseCandidates_cons_none (jl : String → Option Json)
    {bad : List Char} (hbad : jl (String.mk (pyStrip bad)) = none)
    (l : List (List Char)) :
    parseCandidates jl (bad :: l) = parseCandidates jl l := by
  simp [parseCandidates, hbad]

theorem find?_replace_self {κ α : Type} [DecidableEq κ] (k : κ) (v : α) :
    ∀ d : List (κ × α), d.any (fun p => decide (p.1 = k)) = true →
      (d.map (fun p => if p.1 = k then (k, v) else p)).find?
        (fun p => decide (p.1 = k)) = some (k, v) := by
  intro d
  induction d with
  | nil => intro h; simp at h
  | cons p d ih =>
    intro h
    by_cases hp : p.1 = k
    · simp [hp]
    · have h' : d.any (fun p => decide (p.1 = k)) = true := by
        simpa [hp] using h
      simp only [List.map_cons, if_neg hp]
      rw [List.find?_cons_of_neg _ (by simp [hp])]
      exact ih h'

theorem find?_replace_ne {κ α : Type} [DecidableEq κ] (k k2 : κ) (v : α)
    (hne : k2 ≠ k) :
    ∀ d : List (κ × α),
      (d.map (fun p => if p.1 = k then (k, v) else p)).find?
        (fun p => decide (p.1 = k2)) = d.find? (fun p => decide (p.1 = k2)) := by
  intro d
  induction d with
  | nil => rfl
  | cons p d ih =>
    by_cases hp : p.1 = k
    · have hpk2 : ¬ p.1 = k2 := by rw [hp]; exact fun hk => hne hk.symm
      simp only [List.map_cons, if_pos hp]
      rw [List.find?_cons_of_neg _ (by simp; exact fun hk => hne hk.symm),
        List.find?_cons_of_neg _ (by simp [hpk2])]
      exact ih
    · by_cases hp2 : p.1 = k2
      · simp only [List.map_cons, if_neg hp]
        rw [List.find?_cons_of_pos _ (by simp [hp2]),
          List.find?_cons_of_pos _ (by simp [hp2])]
      · simp only [List.map_cons, if_neg hp]
        rw [List.find?_cons_of_neg _ (by simp [hp2]),
          List.find?_cons_of_neg _ (by simp [hp2])]
        exact ih

theorem keys_replace {κ α : Type} [DecidableEq κ] (k : κ) (v : α) :
    ∀ d : List (κ × α),
      (d.map (fun p => if p.1 = k then (k, v) else p)).map Prod.fst =
        d.map Prod.fst := by
  intro d
  induction d with
  | nil => rfl
  | cons p d ih =>
    by_cases hp : p.1 = k
    · simp only [List.map_cons, if_pos hp, ih]
      rw [hp]
    · simp only [List.map_cons, if_neg hp, ih]

theorem dictGet?_insert_self {κ α : Type} [DecidableEq κ]
    (d : List (κ × α)) (k : κ) (v : α) :
    dictGet? (dictInsert d k v) k = some v := by
  unfold dictInsert dictGet?
  by_cases h : d.any (fun p => decide (p.1 = k)) = true
  · rw [if_pos h, find?_replace_self k v d h]; rfl
  · rw [if_neg h, List.find?_append]
    have hnone : d.find? (fun p => decide (p.1 = k)) = none := by
      rw [List.find?_eq_none]
      intro x hx
      simp only [decide_eq_true_eq]
      intro hk
      exact h (List.any_eq_true.mpr ⟨x, hx, by simp [hk]⟩)
    simp [hnone]

theorem dictGet?_insert_ne {κ α : Type} [DecidableEq κ]
    (d : List (κ × α)) (k k2 : κ) (v : α) (hne : k2 ≠ k) :
    dictGet? (dictInsert d k v) k2 = dictGet? d k2 := by
  unfold dictInsert dictGet?
  by_cases h : d.any (fun p => decide (p.1 = k)) = true
  · rw [if_pos h, find?_replace_ne k k2 v hne d]
  · rw [if_neg h, List.find?_append]
    have hsing : List.find? (fun p => decide (p.1 = k2)) [(k, v)] = none := by
      simp
      exact fun hk => hne hk.symm
    rw [hsing]
    cases hfind : d.find? (fun p => decide (p.1 = k2)) <;> simp

theorem dictInsert_keys_nodup {κ α : Type} [DecidableEq κ]
    (d : List (κ × α)) (k : κ) (v : α)
    (hd : (d.map Prod.fst).Nodup) :
    ((dictInsert d k v).map Prod.fst).Nodup := by
  unfold dictInsert
  by_cases h : d.any (fun p => decide (p.1 = k)) = true
  · rw [if_pos h, keys_replace]
    exact hd
  · rw [if_neg h, List.map_append]
    rw [List.nodup_append]
    refine ⟨hd, List.nodup_singleton _, ?_⟩
    intro x hx hxk
    simp only [List.map_cons, List.map_nil, List.mem_singleton] at hxk
    subst hxk
    obtain ⟨p, hp, hpk⟩ := List.mem_map.mp hx
    exact h (List.any_eq_true.mpr ⟨p, hp, by simp [hpk]⟩)

/-- The dict key under which a specification is filed: its `"name"` field
as a hashable value. -/
def specKey? (t : Json) : Option PyKey :=
  (t.get? "name").bind pyKeyOf?

/-- The last specification of a list filed under a given name, the one
last-write-wins keeps. -/
def lastNamed (n : PyKey) : List Json → Option Json
  | [] => none
  | t :: ts =>
    match lastNamed n ts with
    | some u => some u
    | none => if specKey? t = some n then some t else none

theorem ingestSpecs_get (specs : List Json) :
    ∀ d d', (d.map Prod.fst).Nodup → ingestSpecs d specs = (d', none) →
      (d'.map Prod.fst).Nodup ∧ ∀ n : PyKey, dictGet? d' n =
        (match lastNamed n specs with
          | some u => some u
          | none => dictGet? d n) := by
  induction specs with
  | nil =>
    intro d d' hd h
    simp only [ingestSpecs, Prod.mk.injEq] at h
    obtain ⟨rfl, -⟩ := h
    exact ⟨hd, fun n => by simp [lastNamed]⟩
  | cons t ts ih =>
    intro d d' hd h
    rw [ingestSpecs] at h
    cases hname : t.get? "name" with
    | none =>
      simp only [hname] at h
      have h2 := congrArg Prod.snd h
      simp at h2
    | some v =>
      simp only [hname] at h
      cases hkey : pyKeyOf? v with
      | none =>
        simp only [hkey] at h
        have h2 := congrArg Prod.snd h
        simp at h2
      | some k =>
        simp only [hkey] at h
        obtain ⟨hnd, hget⟩ := ih (dictInsert d k t) d'
          (dictInsert_keys_nodup d k t hd) h
        refine ⟨hnd, fun n => ?_⟩
        rw [hget n]
        have hsk : specKey? t = some k := by
          simp [specKey?, hname, hkey]
        cases hlast : lastNamed n ts with
        | some u => simp [lastNamed, hlast]
        | none =>
          simp only [lastNamed, hlast]
          by_cases hk : k = n
          · subst hk
            simp [hsk, dictGet?_insert_self]
          · rw [if_neg (by simp [hsk]; exact hk)]
            exact dictGet?_insert_ne d k n t (fun hnk => hk hnk.symm)

theorem importedNames_sound (env : Env) (fns : List FnCall) :
    ∀ n, n ∈ importedNames env fns → env.importTool n = .ok () := by
  induction fns with
  | nil => intro n hn; simp [importedNames, importLoop] at hn
  | cons fn rest ih =>
    intro n hn
    simp only [importedNames, importLoop] at hn
    cases himp : env.importTool fn.name with
    | ok u =>
      rw [himp] at hn
      simp only [List.mem_cons] at hn
      rcases hn with rfl | hn
      · rw [himp]
      · exact ih n hn
    | error e =>
      rw [himp] at hn
      exact ih n hn

theorem importLoop_error_event (env : Env) (fns : List FnCall)
    (fn : FnCall) (hfn : fn ∈ fns) (e : String)
    (herr : env.importTool fn.name = .error e) :
    ("Error importing tool " ++ fn.name ++ ": " ++ e) ∈ (importLoop env fns).1 := by
  induction fns with
  | nil => cases hfn
  | cons g rest ih =>
    simp only [importLoop]
    rcases List.mem_cons.mp hfn with rfl | hmem
    · rw [herr]; simp
    · cases himp : env.importTool g.name <;> simp [ih hmem]

theorem execLoop_results (env : Env) (imported : List String) (n : Nat)
    (invs : List (FnCall × Json)) :
    ∀ i, (execLoop env imported n i invs).2 =
      invs.map (execOneResult env imported) := by
  induction invs with
  | nil => intro i; rfl
  | cons inv rest ih =>
    intro i
    simp only [execLoop, List.map_cons]
    cases hc : effCall env imported inv <;>
      simp [execOneResult, hc, ih (i + 1)]

theorem execLoop_error_event (env : Env) (imported : List String) (n : Nat)
    (invs : List (FnCall × Json)) (inv : FnCall × Json) (hinv : inv ∈ invs)
    (e : String) (herr : effCall env imported inv = .error e) :
    ∀ i, ("Error executing tool " ++ inv.1.name ++ ": " ++ e) ∈
      (execLoop env imported n i invs).1 := by
  induction invs with
  | nil => cases hinv
  | cons g rest ih =>
    intro i
    simp only [execLoop]
    rcases List.mem_cons.mp hinv with rfl | hmem
    · rw [herr]; simp
    · cases hc : effCall env imported g <;> simp [ih hmem (i + 1)]

/-- Whatever the invoker, the argument parsing and the summarizer do, the
invocation phase always emits its opening "Analyzing your request" event:
reaching `phaseInvokeOnward` at all is observable in the trace. -/
theorem analyzing_event_always (env : Env) (store : FileStore) (r : String)
    (s : SessionState) :
    "Analyzing your request and determining which tools to use..." ∈
      (phaseInvokeOnward env store r s).events := by
  simp only [phaseInvokeOnward]
  split
  · simp
  · split
    · simp
    · split <;> simp

/-- The invocation, execution and summarization phases never touch the
capability mapping or the synthesized-source map. -/
theorem phaseInvokeOnward_preserves (env : Env) (store : FileStore)
    (r : String) (s : SessionState) :
    (phaseInvokeOnward env store r s).state.tools_to_create = s.tools_to_create ∧
    (phaseInvokeOnward env store r s).state.tool_fns = s.tool_fns := by
  simp only [phaseInvokeOnward]
  split
  · simp
  · split
    · simp
    · split <;> simp

/-! ### Claim theorems -/

/-- Claim C3: in every run that reaches the dynamic-execution phase, the
recorded Call Results are exactly one `function_call_output` per extracted
Call Request, in order — so their count equals the count of Call Requests,
none dropped, none duplicated; each Call Result carries the dumped tool
output or the dumped error description, as `execOneResult` states. -/
theorem dynPhase_one_result_per_request (env : Env)
    (invs : List (FnCall × Json)) :
    (dynPhase env invs).2 =
      invs.map (execOneResult env (importedNames env (invs.map Prod.fst))) ∧
    (dynPhase env invs).2.length = invs.length := by
  have h := execLoop_results env (importedNames env (invs.map Prod.fst))
    invs.length invs 0
  constructor
  · simpa only [dynPhase, importedNames] using h
  · simp only [dynPhase, importedNames] at h ⊢
    rw [h, List.length_map]

/-- Claim C4: a failure of the load step or of the call step of one Call
Request is caught per request: the error progress event is emitted, the
failing request's own Call Result carries the dumped error description,
and every request — the remaining ones included — still receives exactly
one Call Result at its own position. -/
theorem dynPhase_failure_isolated (env : Env) (invs : List (FnCall × Json))
    (i : Nat) (inv : FnCall × Json) (hinv : invs[i]? = some inv) :
    (dynPhase env invs).2.length = invs.length ∧
    (dynPhase env invs).2[i]? =
      some (execOneResult env (importedNames env (invs.map Prod.fst)) inv) ∧
    (∀ e, env.importTool inv.1.name = .error e →
      ("Error importing tool " ++ inv.1.name ++ ": " ++ e) ∈ (dynPhase env invs).1 ∧
      (dynPhase env invs).2[i]? = some ⟨inv.1.call_id,
        env.jsonDumps (Json.obj [("error",
          Json.str ("name \x27" ++ inv.1.name ++ "\x27 is not defined"))])⟩) ∧
    (∀ e, effCall env (importedNames env (invs.map Prod.fst)) inv = .error e →
      ("Error executing tool " ++ inv.1.name ++ ": " ++ e) ∈ (dynPhase env invs).1 ∧
      (dynPhase env invs).2[i]? = some ⟨inv.1.call_id,
        env.jsonDumps (Json.obj [("error", Json.str e)])⟩) := by
  have hmem : inv ∈ invs := List.getElem?_mem hinv
  have hres := (dynPhase_one_result_per_request env invs).1
  have hlen := (dynPhase_one_result_per_request env invs).2
  have hat : (dynPhase env invs).2[i]? =
      some (execOneResult env (importedNames env (invs.map Prod.fst)) inv) := by
    rw [hres, List.getElem?_map, hinv]; rfl
  refine ⟨hlen, hat, ?_, ?_⟩
  · intro e herr
    have hnotin : inv.1.name ∉ importedNames env (invs.map Prod.fst) := by
      intro hin
      have := importedNames_sound env (invs.map Prod.fst) inv.1.name hin
      rw [herr] at this
      cases this
    have heff : effCall env (importedNames env (invs.map Prod.fst)) inv =
        .error ("name \x27" ++ inv.1.name ++ "\x27 is not defined") := by
      rw [effCall, if_neg hnotin]
    constructor
    · have hev := importLoop_error_event env (invs.map Prod.fst) inv.1
        (List.mem_map_of_mem Prod.fst hmem) e herr
      simp only [dynPhase, importedNames]
      exact List.mem_append.mpr (Or.inl hev)
    · rw [hat]
      simp only [execOneResult, heff]
  · intro e herr
    constructor
    · have hev := execLoop_error_event env (importedNames env (invs.map Prod.fst))
        invs.length invs inv hmem e herr 0
      simp only [dynPhase, importedNames] at hev ⊢
      exact List.mem_append.mpr (Or.inr hev)
    · rw [hat]
      simp only [execOneResult, herr]

/-- Claim C5: `extract_tool_specs` parses each marker-delimited candidate
independently: the result is exactly the ordered `filterMap` of the
candidates through `json.loads` (every valid candidate survives in order
of occurrence, every malformed one is skipped), and a malformed candidate
anywhere in the list leaves the extraction of all other candidates
untouched; being a total function, the extraction never raises. -/
theorem extract_tool_specs_isolates_malformed (jl : String → Option Json)
    (content : String) :
    extract_tool_specs jl content =
      (findMatches content.data).filterMap (fun m => jl (String.mk (pyStrip m))) ∧
    ∀ pre bad post, findMatches content.data = pre ++ bad :: post →
      jl (String.mk (pyStrip bad)) = none →
      extract_tool_specs jl content =
        parseCandidates jl pre ++ parseCandidates jl post := by
  constructor
  · exact parseCandidates_eq_filterMap jl (findMatches content.data)
  · intro pre bad post hsplit hbad
    rw [extract_tool_specs, hsplit, parseCandidates_append,
      parseCandidates_cons_none jl hbad]

/-- Claim C6: ingesting the planner's specifications into the (initially
empty) capability mapping leaves at most one entry per name — the mapping's
keys are distinct — and the entry stored under a name is the specification
that occurred last under that name in the planner's output. -/
theorem ingest_last_write_wins (specs : List Json) (d : List (PyKey × Json))
    (h : ingestSpecs [] specs = (d, none)) (n : PyKey) :
    (d.map Prod.fst).Nodup ∧ dictGet? d n = lastNamed n specs := by
  obtain ⟨hnd, hget⟩ := ingestSpecs_get specs [] d (by simp) h
  refine ⟨hnd, ?_⟩
  rw [hget n]
  cases hl : lastNamed n specs
  · rfl
  · rfl

/-- Claim C7: `generate_and_write_tool` writes the model's entire output
text to the storage location derived from the specification's name,
truncating whatever a previous synthesis stored there, and returns the
text it wrote: after a second synthesis for the same specification the
store holds exactly the second output at that name's path. -/
theorem generate_and_write_tool_overwrites (env1 env2 : Env)
    (tool_dir : String) (store : FileStore) (tool nm : Json) (o1 o2 : String)
    (store1 : FileStore)
    (hn : tool.get? "name" = some nm)
    (_h1 : generate_and_write_tool env1 tool_dir store tool = .ok (o1, store1))
    (h2 : env2.writeToolSource (env2.jsonDumps tool) = .ok o2) :
    generate_and_write_tool env2 tool_dir store1 tool =
      .ok (o2, dictInsert store1 (toolPath tool_dir nm) o2) ∧
    dictGet? (dictInsert store1 (toolPath tool_dir nm) o2)
      (toolPath tool_dir nm) = some o2 := by
  constructor
  · rw [generate_and_write_tool, h2, hn]
  · exact dictGet?_insert_self store1 (toolPath tool_dir nm) o2

/-- Claim C1 (the code violates it): with an empty capability mapping after
planning, `run` does yield the "cannot proceed" event, but the `if` of
line 134 carries no `return`, so the run still performs the invoker call,
the call extraction, the dynamic execution and the summarization, and
completes — it does not end there.  The trace below shows the events the
claim forbids after the warning. -/
theorem run_empty_mapping_still_proceeds :
    (run envNoSpecs "." [] "req" "sid" "uid").events =
      ["Determining necessary tool definitions...",
       "Great! I need to write the source for the following tools:",
       "Writing tool source code....",
       "Finished writing code for 0 tools",
       "Added tools to the Supabase collection.",
       "Now I\x27ll use these tools to answer your question...",
       "Analyzing your request and determining which tools to use...",
       "No tools were created, cannot proceed with execution.",
       "No tools need to be executed for this request.",
       "Processing the results and generating final response...",
       "Final response: I was unable to help."] ∧
    (run envNoSpecs "." [] "req" "sid" "uid").outcome = .completed :=
  ⟨rfl, rfl⟩

/-- Claim C2 as stated is false on the code: here the synthesis phase
raises `boom`, the error event is emitted, and yet the run does not halt —
the persistence notification, the invoker call, one full Call Request
(imported, executed, given its Call Result) and the summarization all
still happen, and the run completes. -/
theorem run_synthesis_failure_still_invokes :
    (run envSynthFails "." [] "req" "sid" "uid").events =
      ["Determining necessary tool definitions...",
       "Great! I need to write the source for the following tools:",
       "t: d",
       "Writing tool source code....",
       "Error writing tool source code: boom",
       "Failed to log to Supabase: \x27t\x27",
       "Now I\x27ll use these tools to answer your question...",
       "Analyzing your request and determining which tools to use...",
       "I need to execute 1 tool(s) to answer your question...",
       "Importing tool: t...",
       "Error importing tool t: No module named \x27lib.tools.t\x27",
       "Executing tool 1/1: t...",
       "Error executing tool t: name \x27t\x27 is not defined",
       "Processing the results and generating final response...",
       "Final response: I could not run the tool."] ∧
    (run envSynthFails "." [] "req" "sid" "uid").outcome = .completed ∧
    (run envSynthFails "." [] "req" "sid" "uid").state.response_thread =
      [Msg.user "req",
       Msg.item (Item.functionCall ⟨"t", "\x7b\x7d", "call_1"⟩),
       Msg.fco "call_1" "\x7b\"error\": \"name \x27t\x27 is not defined\"\x7d"] :=
  ⟨rfl, rfl, rfl⟩

/-- Claim C2, amended: when the synthesis phase raises, the run emits the
error progress event and then continues instead of halting — the
synthesized-source map is left empty, and the invocation phase still runs
(so Call Requests may well be processed afterwards), with the run's fate
being that of the invocation pipeline. -/
theorem run_synthesis_failure_continues (env : Env) (tool_dir : String)
    (store0 : FileStore) (r sid uid : String) (resp : Response)
    (d : List (PyKey × Json)) (repEvs : List String) (store1 : FileStore)
    (e : String)
    (h1 : env.toolCreation [Msg.user r] = .ok resp)
    (h2 : ingestSpecs [] (extract_tool_specs env.jsonLoads resp.output_text)
      = (d, none))
    (h3 : reportEvents d = (repEvs, none))
    (h4 : synthMap env tool_dir store0 d = (store1, .error e)) :
    ("Error writing tool source code: " ++ e) ∈
      (run env tool_dir store0 r sid uid).events ∧
    ∀ joined, (collectNames d).bind joinStrs = .ok joined →
      "Analyzing your request and determining which tools to use..." ∈
        (run env tool_dir store0 r sid uid).events ∧
      (run env tool_dir store0 r sid uid).outcome =
        (phaseInvokeOnward env store1 r
          ⟨[Msg.user r, Msg.outputList resp.output,
            Msg.user ("I have went ahead and successfully created " ++
              toString d.length ++ " tools: " ++ joined)], [], d, []⟩).outcome := by
  simp only [run, h1, h2, h3, h4]
  constructor
  · cases hj : (collectNames d).bind joinStrs with
    | error e2 => simp [afterSynth, hj]
    | ok joined => simp [afterSynth, hj]
  · intro joined hjoined
    simp only [afterSynth, hjoined]
    constructor
    · exact List.mem_append_right _ (analyzing_event_always env store1 r _)
    · simp

/-- Claim C9: when the supabase insert of the synthesized capabilities
raises, the failure is reported as a progress event and the run continues
to the invocation phase; on success the confirmation event is emitted
instead; in either case the capability mapping and the synthesized
sources reach the rest of the run unchanged. -/
theorem run_persistence_failure_nonfatal (env : Env) (tool_dir : String)
    (store0 : FileStore) (r sid uid : String) (resp : Response)
    (d : List (PyKey × Json)) (repEvs : List String) (store1 : FileStore)
    (pairs fns : List (PyKey × String)) (joined : String)
    (h1 : env.toolCreation [Msg.user r] = .ok resp)
    (h2 : ingestSpecs [] (extract_tool_specs env.jsonLoads resp.output_text)
      = (d, none))
    (h3 : reportEvents d = (repEvs, none))
    (h4 : synthMap env tool_dir store0 d = (store1, .ok pairs))
    (hfns : fns = pairs.foldl (fun m p => dictInsert m p.1 p.2) [])
    (h5 : (collectNames d).bind joinStrs = .ok joined) :
    (∀ batch e, buildBatch d fns sid uid d = .ok batch →
      env.insertTools batch = .error e →
      ("Failed to log to Supabase: " ++ e) ∈
        (run env tool_dir store0 r sid uid).events) ∧
    (∀ batch, buildBatch d fns sid uid d = .ok batch →
      env.insertTools batch = .ok () →
      "Added tools to the Supabase collection." ∈
        (run env tool_dir store0 r sid uid).events) ∧
    "Analyzing your request and determining which tools to use..." ∈
      (run env tool_dir store0 r sid uid).events ∧
    (run env tool_dir store0 r sid uid).state.tools_to_create = d ∧
    (run env tool_dir store0 r sid uid).state.tool_fns = fns := by
  subst hfns
  simp only [run, h1, h2, h3, h4, afterSynth, h5]
  refine ⟨?_, ?_, ?_, ?_, ?_⟩
  · intro batch e hb hins
    simp only [persistenceStep, hb, hins]
    simp
  · intro batch hb hins
    simp only [persistenceStep, hb, hins]
    simp
  · exact List.mem_append_right _ (analyzing_event_always env store1 r _)
  · exact (phaseInvokeOnward_preserves env store1 r _).1
  · exact (phaseInvokeOnward_preserves env store1 r _).2

/-- Claim C10: `run` is a pure function of its collaborators and inputs —
two runs with the same request, session id and user id, whose
collaborators answer every call identically, produce the identical ordered
progress-event sequence (indeed the identical whole result, per-capability
and per-call events included). -/
theorem run_deterministic (env1 env2 : Env) (tool_dir : String)
    (store0 : FileStore) (r sid uid : String)
    (h1 : ∀ x, env1.toolCreation x = env2.toolCreation x)
    (h2 : ∀ x, env1.jsonLoads x = env2.jsonLoads x)
    (h3 : ∀ x, env1.jsonDumps x = env2.jsonDumps x)
    (h4 : ∀ x, env1.writeToolSource x = env2.writeToolSource x)
    (h5 : ∀ x, env1.insertTools x = env2.insertTools x)
    (h6 : ∀ x y, env1.useTool x y = env2.useTool x y)
    (h7 : ∀ x, env1.importTool x = env2.importTool x)
    (h8 : ∀ x y, env1.callTool x y = env2.callTool x y)
    (h9 : ∀ x, env1.summarize x = env2.summarize x) :
    run env1 tool_dir store0 r sid uid = run env2 tool_dir store0 r sid uid := by
  have henv : env1 = env2 := by
    cases env1; cases env2
    simp only [Env.mk.injEq]
    exact ⟨funext h1, funext h2, funext h3, funext h4, funext h5,
      funext (fun x => funext (h6 x)), funext h7,
      funext (fun x => funext (h8 x)), funext h9⟩
  rw [henv]

/-- Claim C8: a marker-delimited candidate that is valid JSON but lacks a
`"name"` field makes the spec-ingestion step of `run` raise an uncaught
`KeyError` — the run aborts right after the first progress event, because
the skip-and-continue protection of `extract_tool_specs` covers only JSON
decode errors. -/
theorem run_missing_name_field_raises :
    (run envMissingName "." [] "req" "sid" "uid").outcome =
      .raised "\x27name\x27" ∧
    (run envMissingName "." [] "req" "sid" "uid").events =
      ["Determining necessary tool definitions..."] :=
  ⟨rfl, rfl⟩

/-! ### Witnesses -/

theorem run_synthesis_failure_continues_witness :
    ("Error writing tool source code: " ++ "boom") ∈
      (run envSynthFails "." [] "req" "sid" "uid").events :=
  (run_synthesis_failure_continues envSynthFails "." [] "req" "sid" "uid"
    ⟨[], "<tool_spec>\x7b\"name\": \"t\", \"description\": \"d\"\x7d</tool_spec>"⟩
    [(PyKey.str "t", specT)] ["t: d"] [] "boom" rfl rfl rfl rfl).1

theorem dynPhase_failure_isolated_witness :
    ("Error importing tool " ++ "t" ++ ": " ++ "No module named \x27lib.tools.t\x27")
      ∈ (dynPhase envImportFails invsTwo).1 ∧
    (dynPhase envImportFails invsTwo).2[0]? = some ⟨"call_1",
      envImportFails.jsonDumps (Json.obj [("error",
        Json.str ("name \x27t\x27 is not defined"))])⟩ :=
  ((dynPhase_failure_isolated envImportFails invsTwo 0
    (⟨"t", "\x7b\x7d", "call_1"⟩, Json.obj []) rfl).2.2.1
    "No module named \x27lib.tools.t\x27" rfl)

theorem ingest_last_write_wins_witness :
    (([(PyKey.str "a", specA2)]).map Prod.fst).Nodup ∧
    dictGet? [(PyKey.str "a", specA2)] (PyKey.str "a") =
      lastNamed (PyKey.str "a") [specA1, specA2] :=
  ingest_last_write_wins [specA1, specA2] [(PyKey.str "a", specA2)] rfl
    (PyKey.str "a")

theorem generate_and_write_tool_overwrites_witness :
    generate_and_write_tool envGenV2 "." [("./lib/tools/t.py", "v1")] specT =
      .ok ("v2", dictInsert [("./lib/tools/t.py", "v1")]
        (toolPath "." (Json.str "t")) "v2") ∧
    dictGet? (dictInsert [("./lib/tools/t.py", "v1")]
      (toolPath "." (Json.str "t")) "v2") (toolPath "." (Json.str "t")) =
        some "v2" :=
  generate_and_write_tool_overwrites envGenV1 envGenV2 "." [] specT
    (Json.str "t") "v1" "v2" [("./lib/tools/t.py", "v1")] rfl rfl rfl

theorem run_persistence_failure_nonfatal_witness :
    ("Failed to log to Supabase: " ++ "db down") ∈
      (run envInsertFails "." [] "req" "sid" "uid").events :=
  (run_persistence_failure_nonfatal envInsertFails "." [] "req" "sid" "uid"
    ⟨[], "<tool_spec>\x7b\"name\": \"t\", \"description\": \"d\"\x7d</tool_spec>"⟩
    [(PyKey.str "t", specT)] ["t: d"]
    [("./lib/tools/t.py", "def t(): return 1")]
    [(PyKey.str "t", "def t(): return 1")]
    [(PyKey.str "t", "def t(): return 1")] "t"
    rfl rfl rfl rfl rfl rfl).1
    [⟨PyKey.str "t", Json.str "d", "sid", "def t(): return 1", specT, "uid"⟩]
    "db down" rfl rfl

theorem run_deterministic_witness :
    run envNoSpecs "." [] "req" "sid" "uid" =
      run envNoSpecs "." [] "req" "sid" "uid" :=
  run_deterministic envNoSpecs envNoSpecs "." [] "req" "sid" "uid"
    (fun _ => rfl) (fun _ => rfl) (fun _ => rfl) (fun _ => rfl) (fun _ => rfl)
    (fun _ _ => rfl) (fun _ => rfl) (fun _ _ => rfl) (fun _ => rfl)

end Toolbelt
